import Mathlib

/-!
Shallow embedding of the `gorm-txflow` transaction manager.

The Go source is embedded as pure Lean functions:

* `HooksContainer` with `addHook` / `Execute` follows `txmanager.go`
  lines 31-75 (the mutex is a serialization device; every interleaving of
  the lock-guarded critical sections is a sequence of atomic `addHook` /
  `Execute` steps, modelled by `hcRun` over `HCOp` traces).
* The context helpers `WithDB` / `GetDB` / `GetTx` / `ctxTx` / `AfterCommit`
  follow `unnamed/part_004` and `txmanager.go` lines 139-148.  A Go
  `context.Context` is a chain of `WithValue` frames over the three keys
  `DbCtxKey`, `TxDBKey`, `TxHooksKey`; innermost-shadowing lookup makes it
  observationally a record with one optional field per key, which is how
  `Ctx` models it.
* Option merging follows `txoption.go` lines 141-165 (the three-field
  value-comparing `mergeOptions`) together with the builders of
  `unnamed/part_005`; the propagation default fill follows the
  `fillOptionDefaults` logic of `txoption.go` lines 53-60.
* The propagation engine `DoInTransaction` with its strategies
  `beginNewTransactionWithHooks`, `beginNewTransactionWithHooksOnNewSession`
  and `runNestedUsingSavepoint` follows `txmanager.go` lines 80-240.
  Stateful effects (the gorm transaction lifecycle, hook registration,
  savepoint naming) are threaded through an explicit state `St` that also
  records an observable event trace.

Machine pointers are modelled by `Nat` identities; `*gorm.DB` values are
modelled by `DBRef` (underlying session identity plus optional transaction
handle); fallible collaborator primitives (begin / commit / savepoint /
rollback-to-savepoint) take their outcomes from a `DbEnv` oracle.
-/

namespace GormTxflow

/-- Errors of the system.  The named constructors model the sentinel error
values of `unnamed/part_002` / `unnamed/part_003`; `user` models an error
value returned by caller-supplied code; `hookPanic` models the error built by
`HooksContainer.Execute` from a recovered panic (`txmanager.go` line 66);
`savepointFailed` and `nestedRollbackFailed` model the wrapped errors of
`runNestedUsingSavepoint` (`txmanager.go` lines 223 and 230); `dbErr` models
an error reported by the underlying database collaborator. -/
inductive Err where
  | noDBAwareContext
  | noTransaction
  | transactionPresent
  | multiplePropagation
  | multipleIsolation
  | multipleReadLevel
  | user (s : String)
  | hookPanic (recovered : String) (stack : String)
  | savepointFailed (inner : Err)
  | nestedRollbackFailed (orig : Err) (rbErr : Err)
  | dbErr (s : String)
deriving DecidableEq, Repr

/-- Models a `*gorm.DB` value by what the embedded code paths can observe of
it: the identity of the underlying session/connection pool and, when the
value is a transaction handle, the identity of that transaction.  The
statement context a `*gorm.DB` carries is not stored here because every
embedded use immediately overwrites it via `WithContext` (see
`withContextStatementContext`). -/
structure DBRef where
  session : Nat
  txHandle : Option Nat
deriving DecidableEq, Repr

/-- Models a Go `context.Context` restricted to the three keys the package
uses: `DbCtxKey` (root `*gorm.DB`), `TxDBKey` (active transaction `*gorm.DB`)
and `TxHooksKey` (a `*HooksContainer`, identified by its index in the hooks
store of the execution state).  `context.WithValue` shadows outer entries,
so a chain of frames is observationally this record; derivation is a record
update, never a mutation.  Storing a nil `*gorm.DB` pointer under a key is
not modelled (no embedded path stores nil). -/
structure Ctx where
  rootDB : Option DBRef := none
  txDB : Option DBRef := none
  txHooks : Option Nat := none
deriving DecidableEq, Repr

/-- Result of invoking one post-commit hook: normal return with no error,
normal return with an error value, or a panic carrying the recovered value's
textual form. -/
inductive HookRes where
  | ok
  | err (e : Err)
  | panicked (msg : String)

/-- TxHookFunc runs after the associated transaction commits successfully
(`txmanager.go` line 29): it receives the post-commit context and reports a
`HookRes`. -/
abbrev TxHookFunc := Ctx → HookRes

/-- Models `debug.Stack()`: the runtime stack capture attached to a
converted hook panic.  Its contents are environmental, so it is modelled as
an abstract marker string. -/
def debugStack : String := "goroutine stack trace"

/-- HooksContainer contains the hook functions to execute according to the
transaction lifecycle (`txmanager.go` lines 32-36).  The mutex is implicit:
each operation below is one lock-guarded atomic step. -/
structure HooksContainer where
  hooks : List TxHookFunc
  executed : Bool

/-- addHook adds a new hook function to the HooksContainer (`txmanager.go`
lines 39-47): defensive, hooks added after execution are ignored. -/
def HooksContainer.addHook (hc : HooksContainer) (h : TxHookFunc) : HooksContainer :=
  if hc.executed then hc
  else { hc with hooks := hc.hooks ++ [h] }

/-- Models the conversion of one hook invocation's outcome into an optional
collected error, as done by the loop body of `HooksContainer.Execute`
(`txmanager.go` lines 62-72): a returned error is collected as-is; a panic
is recovered and converted into an error carrying the recovered value and a
diagnostic stack trace. -/
def runHook (ctx : Ctx) (h : TxHookFunc) : Option Err :=
  match h ctx with
  | HookRes.ok => none
  | HookRes.err e => some e
  | HookRes.panicked m => some (Err.hookPanic m debugStack)

/-- Execute runs all hooks once and returns the slice of errors, including
converted panics (`txmanager.go` lines 50-75).  Under the lock it atomically
swaps the hook list for empty and sets `executed`; a call that observes
`executed` already true returns immediately with no errors.  The hooks of
the taken snapshot are then run sequentially in registration order outside
the lock. -/
def HooksContainer.Execute (hc : HooksContainer) (ctx : Ctx) :
    HooksContainer × List Err :=
  if hc.executed then (hc, [])
  else (⟨[], true⟩, hc.hooks.filterMap (runHook ctx))

/-- The hooks that a call to `Execute` invokes, each exactly once and in
registration order: the snapshot taken under the lock (`txmanager.go` line
56), or nothing when `executed` was already observed true. -/
def HooksContainer.execRan (hc : HooksContainer) : List TxHookFunc :=
  if hc.executed then [] else hc.hooks

/-- One serialized operation on a `HooksContainer`: a caller registering a
hook, or a caller draining the container.  The container's mutex serializes
concurrent calls, so any concurrent usage is some `List HCOp`. -/
inductive HCOp where
  | add (h : TxHookFunc)
  | exec

/-- Applies one operation to the container.  An `exec` step also reports its
observable outcome: which hooks it ran and which errors it returned. -/
def hcStep (ctx : Ctx) (hc : HooksContainer) :
    HCOp → HooksContainer × Option (List TxHookFunc × List Err)
  | HCOp.add h => (hc.addHook h, none)
  | HCOp.exec => ((hc.Execute ctx).1, some (hc.execRan, (hc.Execute ctx).2))

/-- Runs a serialized sequence of container operations, collecting the
outcome of every `exec` step in order. -/
def hcRun (ctx : Ctx) (hc : HooksContainer) :
    List HCOp → HooksContainer × List (List TxHookFunc × List Err)
  | [] => (hc, [])
  | op :: rest =>
      match hcStep ctx hc op with
      | (hc', none) => hcRun ctx hc' rest
      | (hc', some out) =>
          let (hcEnd, outs) := hcRun ctx hc' rest
          (hcEnd, out :: outs)

/-- The hooks registered by a sequence of operations, in order. -/
def hooksOf : List HCOp → List TxHookFunc
  | [] => []
  | HCOp.add h :: rest => h :: hooksOf rest
  | HCOp.exec :: rest => hooksOf rest

/-- Number of `exec` operations in a sequence. -/
def countExec : List HCOp → Nat
  | [] => 0
  | HCOp.add _ :: rest => countExec rest
  | HCOp.exec :: rest => countExec rest + 1

/-! ### Context helpers (`unnamed/part_004`, `txmanager.go` lines 139-148) -/

/-- GetDB returns the root `*gorm.DB` stored in ctx, preferring the active
transaction handle if one is present (`unnamed/part_004` lines 18-27).  The
Go `(db, ok)` pair is modelled by `Option DBRef`. -/
def GetDB (ctx : Ctx) : Option DBRef :=
  match ctx.txDB with
  | some tx => some tx
  | none => ctx.rootDB

/-- WithDB seeds the root `*gorm.DB` under `DbCtxKey`, unless `GetDB`
already finds a DB in the context, in which case the input context is
returned unchanged (`unnamed/part_004` lines 9-15). -/
def WithDB (ctx : Ctx) (db : DBRef) : Ctx :=
  if (GetDB ctx).isSome then ctx
  else { ctx with rootDB := some db }

/-- GetTx returns the active transaction `*gorm.DB` stored in ctx under
`TxDBKey`, if present (`unnamed/part_004` lines 38-46). -/
def GetTx (ctx : Ctx) : Option DBRef :=
  ctx.txDB

/-- ctxTx gets the active tx `*gorm.DB` stored in ctx under `TxDBKey`
(`txmanager.go` lines 140-148). -/
def ctxTx (ctx : Ctx) : Option DBRef :=
  ctx.txDB

/-! ### Transaction options (`txoption.go` lines 141-165, `unnamed/part_005`) -/

/-- Go `PropagationLevel` is an integer enumeration; `iota` gives `DEFAULT`
the value 0 and the seven recognized modes the values 1-7
(`unnamed/part_005` lines 8-19).  Modelled as `Nat` so that unrecognized
values exist, exactly as in Go. -/
abbrev PropagationLevel := Nat

def PropagationDefault : PropagationLevel := 0
def PropagationRequired : PropagationLevel := 1
def PropagationRequiresNew : PropagationLevel := 2
def PropagationSupports : PropagationLevel := 3
def PropagationNotSupported : PropagationLevel := 4
def PropagationMandatory : PropagationLevel := 5
def PropagationNever : PropagationLevel := 6
def PropagationNested : PropagationLevel := 7

/-- Go `sql.IsolationLevel` is an integer with `LevelDefault = 0`;
modelled as `Nat`. -/
abbrev IsolationLevel := Nat

/-- Models `sql.TxOptions`: an isolation level and a read-only flag. -/
structure SqlTxOptions where
  isolation : IsolationLevel := 0
  readOnly : Bool := false
deriving DecidableEq, Repr

/-- Transaction option value object (`unnamed/part_005` lines 43-47): the
Go zero value has `Propagation = PropagationDefault`, `Isolation =
sql.LevelDefault` and `setReadLevel = false`, which the default field
values reproduce. -/
structure TxOption where
  txOptions : SqlTxOptions := {}
  setReadLevel : Bool := false
  Propagation : PropagationLevel := PropagationDefault
deriving DecidableEq, Repr

/-- WithPropagation sets the propagation level and returns the tx option
(`unnamed/part_005` lines 49-53). -/
def TxOption.WithPropagation (t : TxOption) (lvl : PropagationLevel) : TxOption :=
  { t with Propagation := lvl }

/-- WithIsolationLevel sets the isolation level and returns the tx option
(`unnamed/part_005` lines 55-59). -/
def TxOption.WithIsolationLevel (t : TxOption) (lvl : IsolationLevel) : TxOption :=
  { t with txOptions := { t.txOptions with isolation := lvl } }

/-- WithReadOnly sets the readonly flag and returns the tx option
(`unnamed/part_005` lines 61-66). -/
def TxOption.WithReadOnly (t : TxOption) (flag : Bool) : TxOption :=
  { t with txOptions := { t.txOptions with readOnly := flag }, setReadLevel := true }

/-- TxOptionWithPropagation returns a new transaction option with the
provided PropagationLevel (`unnamed/part_005` lines 68-71). -/
def TxOptionWithPropagation (lvl : PropagationLevel) : TxOption :=
  TxOption.WithPropagation {} lvl

/-- TxOptionWithIsolationLevel returns a new transaction option with the
provided isolation level (`unnamed/part_005` lines 73-76). -/
def TxOptionWithIsolationLevel (lvl : IsolationLevel) : TxOption :=
  TxOption.WithIsolationLevel {} lvl

/-- TxOptionWithReadonly returns a new transaction option with the provided
read-only flag (`unnamed/part_005` lines 78-81). -/
def TxOptionWithReadonly (flag : Bool) : TxOption :=
  TxOption.WithReadOnly {} flag

/-- One iteration of the `mergeOptions` loop body (`txoption.go` lines
143-163): the three fields are checked in order propagation, isolation,
read-only, each with an early error return on a conflicting value, and
otherwise the option's set fields are written into the accumulator. -/
def mergeIter (result option : TxOption) : TxOption × Option Err :=
  if option.Propagation ≠ PropagationDefault ∧
      result.Propagation ≠ PropagationDefault ∧
      option.Propagation ≠ result.Propagation then
    (result, some Err.multiplePropagation)
  else
    let r1 :=
      if option.Propagation ≠ PropagationDefault then
        { result with Propagation := option.Propagation }
      else result
    if option.txOptions.isolation ≠ 0 ∧
        r1.txOptions.isolation ≠ 0 ∧
        option.txOptions.isolation ≠ r1.txOptions.isolation then
      (r1, some Err.multipleIsolation)
    else
      let r2 :=
        if option.txOptions.isolation ≠ 0 then
          { r1 with txOptions := { r1.txOptions with isolation := option.txOptions.isolation } }
        else r1
      if option.setReadLevel ∧ r2.setReadLevel ∧
          r2.txOptions.readOnly ≠ option.txOptions.readOnly then
        (r2, some Err.multipleReadLevel)
      else
        let r3 :=
          if option.setReadLevel then
            { r2 with txOptions := { r2.txOptions with readOnly := option.txOptions.readOnly },
                      setReadLevel := true }
          else r2
        (r3, none)

/-- The `mergeOptions` loop over the provided options, with the Go early
return on the first conflict. -/
def mergeLoop : TxOption → List TxOption → TxOption × Option Err
  | result, [] => (result, none)
  | result, o :: rest =>
      match mergeIter result o with
      | (r, some e) => (r, some e)
      | (r, none) => mergeLoop r rest

/-- mergeOptions returns a merged transaction option concluded from the
provided options (`txoption.go` lines 141-165): the accumulator starts from
the zero-value `TxOption`. -/
def mergeOptions (options : List TxOption) : TxOption × Option Err :=
  mergeLoop {} options

/-- fillOptionDefaults resolves the unset propagation sentinel to the
default propagation `REQUIRED` (`txoption.go` lines 53-60 express this on
the pointer representation; on the value representation the sentinel is
`PropagationDefault`). -/
def fillOptionDefaults (opt : TxOption) : TxOption :=
  if opt.Propagation = PropagationDefault then
    { opt with Propagation := PropagationRequired }
  else opt

/-! ### Execution state of the propagation engine (`txmanager.go` lines 80-240) -/

/-- Observable events of one engine run, in order of occurrence. -/
inductive Ev where
  | beginTx (session : Nat) (tx : Nat)
  | commitTx (tx : Nat)
  | commitFailedTx (tx : Nat)
  | rollbackTx (tx : Nat)
  | savepointCreate (tx : DBRef) (name : String)
  | rollbackToSavepoint (tx : DBRef) (name : String)
  | uowInvoked (c : Ctx)
  | hooksExecuted (cid : Nat) (ran : List TxHookFunc) (errs : List Err)

/-- Mutable execution state threaded through the engine: the heap of
allocated `HooksContainer`s (a context stores a container by its index
here), a fresh-transaction-handle counter, the clock counter backing
`generateSavepointName` (`time.Now().UnixNano()` modelled as a monotone
counter), and the event trace. -/
structure St where
  hooksStore : List HooksContainer := []
  nextTx : Nat := 0
  nextSp : Nat := 0
  events : List Ev := []

/-- Outcomes of the database collaborator's fallible primitives for one
engine run: transaction begin, commit, savepoint creation, and rollback to
a savepoint each either succeed (`none`) or report an error. -/
structure DbEnv where
  beginErr : Option Err := none
  commitErr : Option Err := none
  savepointErr : Option Err := none
  rollbackToErr : Option Err := none

/-- AfterCommit registers a post-commit hook inside an active transaction
context by adding it to the context's `HooksContainer`
(`unnamed/part_004`): the abnormal panic path taken when the context
carries no container is outside this model (registration is then dropped;
every embedded claim runs registrations inside a hook-carrying context). -/
def AfterCommit (ctx : Ctx) (hook : TxHookFunc)
    (store : List HooksContainer) : List HooksContainer :=
  match ctx.txHooks with
  | some cid =>
      match store.get? cid with
      | some hc => store.set cid (hc.addHook hook)
      | none => store
  | none => store

/-- A unit-of-work function: given the context the engine hands it, it is
characterized by the post-commit hooks it registers through `AfterCommit`
and the error it returns. -/
abbrev Uow := Ctx → List TxHookFunc × Option Err

/-- Invokes the unit-of-work with context `c`: records the invocation,
registers each hook the unit-of-work submits via `AfterCommit`, and yields
its returned error. -/
def runUow (fn : Uow) (c : Ctx) (σ : St) : Option Err × St :=
  let out := fn c
  (out.2,
   { σ with
     events := σ.events ++ [Ev.uowInvoked c],
     hooksStore := out.1.foldl (fun st h => AfterCommit c h st) σ.hooksStore })

/-- Drains and runs the hooks container `cid` against context `ctx`,
mirroring an `hc.Execute(ctx)` call on a container reachable from the
store; records which hooks ran and the collected errors. -/
def executeHooks (cid : Nat) (ctx : Ctx) (σ : St) : List Err × St :=
  match σ.hooksStore.get? cid with
  | none => ([], σ)
  | some hc =>
      let errs := (hc.Execute ctx).2
      (errs,
       { σ with
         hooksStore := σ.hooksStore.set cid (hc.Execute ctx).1,
         events := σ.events ++ [Ev.hooksExecuted cid hc.execRan errs] })

/-- Models `db.Session(&gorm.Session{NewDB: true})` (`txmanager.go` lines
111 and 189): a fresh statement over the same connection pool, so the
session identity (and, through the pool, any transaction the pool is bound
to) is preserved. -/
def sessionNewDB (db : DBRef) : DBRef := db

/-- Models the expression `db.WithContext(c).Statement.Context`
(`txmanager.go` lines 107, 112, 114, 126): gorm's `WithContext` sets the
derived statement's context to exactly the given context, so the expression
evaluates to `c` for every `db`. -/
def withContextStatementContext (_db : DBRef) (c : Ctx) : Ctx := c

/-- Models gorm's `db.Transaction(fc)`: begin a transaction (fresh handle
from the state), run `fc` with the transaction handle, roll back and return
`fc`'s error when it fails, otherwise commit and return the commit
outcome.  The savepoint-based variant gorm substitutes when the connection
pool is already inside a transaction is abstracted into the same
begin/run/commit-or-rollback lifecycle. -/
def gormTransaction (env : DbEnv) (db : DBRef)
    (fc : DBRef → St → Option Err × St) (σ : St) : Option Err × St :=
  match env.beginErr with
  | some e => (some e, σ)
  | none =>
      let th := σ.nextTx
      let σ1 : St := { σ with nextTx := th + 1,
                              events := σ.events ++ [Ev.beginTx db.session th] }
      let tx : DBRef := { session := db.session, txHandle := some th }
      match fc tx σ1 with
      | (some e, σ2) =>
          (some e, { σ2 with events := σ2.events ++ [Ev.rollbackTx th] })
      | (none, σ2) =>
          match env.commitErr with
          | some ce => (some ce, { σ2 with events := σ2.events ++ [Ev.commitFailedTx th] })
          | none => (none, { σ2 with events := σ2.events ++ [Ev.commitTx th] })

/-- generateSavepointName derives a fresh savepoint name from the clock
(`txmanager.go` lines 238-240); the nanosecond clock is modelled by the
monotone counter `nextSp`. -/
def generateSavepointName (σ : St) : String × St :=
  ("sp_" ++ toString σ.nextSp, { σ with nextSp := σ.nextSp + 1 })

/-- beginNewTransactionWithHooks starts a new DB transaction and attaches a
fresh HooksContainer and the tx pointer to the context; the unit-of-work
receives `tx.Statement.Context`, i.e. the context carrying both.  When the
transaction function returns nil (commit succeeded), the container's hooks
are executed against the hooks-carrying context and their errors are only
logged; the transaction error is returned unchanged (`txmanager.go` lines
152-182). -/
def beginNewTransactionWithHooks (env : DbEnv) (baseCtx : Ctx) (db : DBRef)
    (fn : Uow) (σ : St) : Option Err × St :=
  let cid := σ.hooksStore.length
  let σ0 : St := { σ with hooksStore := σ.hooksStore ++ [⟨[], false⟩] }
  let ctxWithHooks : Ctx := { baseCtx with txHooks := some cid }
  match gormTransaction env db
      (fun tx σ' =>
        let ctxWithHooksAndTx : Ctx := { ctxWithHooks with txDB := some tx }
        runUow fn ctxWithHooksAndTx σ') σ0 with
  | (none, σ1) => (none, (executeHooks cid ctxWithHooks σ1).2)
  | (some e, σ1) => (some e, σ1)

/-- beginNewTransactionWithHooksOnNewSession starts a fresh DB session and
transaction for REQUIRES_NEW (`txmanager.go` lines 185-209); apart from the
`Session(NewDB: true)` derivation it mirrors
`beginNewTransactionWithHooks`. -/
def beginNewTransactionWithHooksOnNewSession (env : DbEnv) (baseCtx : Ctx)
    (db : DBRef) (fn : Uow) (σ : St) : Option Err × St :=
  let cid := σ.hooksStore.length
  let σ0 : St := { σ with hooksStore := σ.hooksStore ++ [⟨[], false⟩] }
  let ctxWithHooks : Ctx := { baseCtx with txHooks := some cid }
  let newDB := sessionNewDB db
  match gormTransaction env newDB
      (fun tx σ' =>
        let ctxWithHooksAndTx : Ctx := { ctxWithHooks with txDB := some tx }
        runUow fn ctxWithHooksAndTx σ') σ0 with
  | (none, σ1) => (none, (executeHooks cid ctxWithHooks σ1).2)
  | (some e, σ1) => (some e, σ1)

/-- runNestedUsingSavepoint runs the unit-of-work inside the existing
transaction using a savepoint (`txmanager.go` lines 213-236): locate the
current tx from the context (defensively starting a new transaction when
absent), create a savepoint, run the unit-of-work with the same tx-aware
base context, and on failure roll back to the savepoint, propagating the
original error; on success nothing further happens. -/
def runNestedUsingSavepoint (env : DbEnv) (baseCtx : Ctx) (db : DBRef)
    (fn : Uow) (σ : St) : Option Err × St :=
  match ctxTx baseCtx with
  | none => beginNewTransactionWithHooks env baseCtx db fn σ
  | some tx =>
      let (spName, σ0) := generateSavepointName σ
      match env.savepointErr with
      | some e => (some (Err.savepointFailed e), σ0)
      | none =>
          let σ1 : St := { σ0 with events := σ0.events ++ [Ev.savepointCreate tx spName] }
          match runUow fn baseCtx σ1 with
          | (some e, σ2) =>
              match env.rollbackToErr with
              | some rbErr => (some (Err.nestedRollbackFailed e rbErr), σ2)
              | none =>
                  (some e,
                   { σ2 with events := σ2.events ++ [Ev.rollbackToSavepoint tx spName] })
          | (none, σ2) => (none, σ2)

/-- The `switch *txOption.propagation` statement of `DoInTransaction`
(`txmanager.go` lines 92-136), factored over the resolved propagation
value `p` and the DB resolved from the context: each recognized mode
selects its strategy, and the default branch returns
`ErrMultiplePropagation` for unrecognized values. -/
def propagationSwitch (env : DbEnv) (ctx : Ctx) (fn : Uow) (db : DBRef)
    (p : PropagationLevel) (σ : St) : Option Err × St :=
  if p = PropagationRequired then
            match ctxTx ctx with
            | some _ => runUow fn ctx σ
            | none => beginNewTransactionWithHooks env ctx db fn σ
          else if p = PropagationRequiresNew then
            beginNewTransactionWithHooksOnNewSession env ctx db fn σ
          else if p = PropagationSupports then
            match ctxTx ctx with
            | some _ => runUow fn ctx σ
            | none => runUow fn (withContextStatementContext db ctx) σ
          else if p = PropagationNotSupported then
            match ctxTx ctx with
            | some _ => runUow fn (withContextStatementContext (sessionNewDB db) ctx) σ
            | none => runUow fn (withContextStatementContext db ctx) σ
          else if p = PropagationMandatory then
            match ctxTx ctx with
            | some _ => runUow fn ctx σ
            | none => (some Err.noTransaction, σ)
          else if p = PropagationNever then
            match ctxTx ctx with
            | some _ => (some Err.transactionPresent, σ)
            | none => runUow fn (withContextStatementContext db ctx) σ
          else if p = PropagationNested then
            match ctxTx ctx with
            | none => beginNewTransactionWithHooks env ctx db fn σ
            | some _ => runNestedUsingSavepoint env ctx db fn σ
          else (some Err.multiplePropagation, σ)

/-- DoInTransaction runs the unit-of-work under the merged propagation
option, reading the DB from the context (`txmanager.go` lines 80-137): a
merge error is returned before anything else happens; a context without a
DB is rejected; otherwise the propagation switch selects the strategy. -/
def DoInTransaction (env : DbEnv) (ctx : Ctx) (fn : Uow)
    (txOptions : List TxOption) (σ : St) : Option Err × St :=
  match mergeOptions txOptions with
  | (_, some e) => (some e, σ)
  | (merged, none) =>
      let txOption := fillOptionDefaults merged
      match GetDB ctx with
      | none => (some Err.noDBAwareContext, σ)
      | some db => propagationSwitch env ctx fn db txOption.Propagation σ

/-- The context the unit-of-work receives on the begin-new-transaction
paths: the base context extended with the fresh hooks container (next index
of the store) and the fresh transaction handle over `db`'s session. -/
def beginNewUowCtx (db : DBRef) (baseCtx : Ctx) (σ : St) : Ctx :=
  { baseCtx with
    txHooks := some σ.hooksStore.length,
    txDB := some { session := db.session, txHandle := some σ.nextTx } }

/-- The propagation value an option explicitly sets (`PropagationDefault`
is the unset sentinel, `txoption.go` line 144). -/
def propOf (o : TxOption) : Option PropagationLevel :=
  if o.Propagation ≠ PropagationDefault then some o.Propagation else none

/-- The isolation level an option explicitly sets (`sql.LevelDefault = 0`
is the unset sentinel, `txoption.go` line 150). -/
def isoOf (o : TxOption) : Option IsolationLevel :=
  if o.txOptions.isolation ≠ 0 then some o.txOptions.isolation else none

/-- The read-only flag an option explicitly sets (`setReadLevel` is the
set marker, `txoption.go` line 156). -/
def roOf (o : TxOption) : Option Bool :=
  if o.setReadLevel then some o.txOptions.readOnly else none

/-- All values that the options of the list set for the field extracted by
`f` coincide. -/
def AgreeOn {β : Type} (f : TxOption → Option β) (os : List TxOption) : Prop :=
  ∀ a ∈ os.filterMap f, ∀ b ∈ os.filterMap f, a = b

/-- The value established by the first option that sets the field extracted
by `f`, or the default `d` when no option sets it. -/
def firstSetD {β : Type} (f : TxOption → Option β) (os : List TxOption) (d : β) : β :=
  (os.findSome? f).getD d

/-- Two options do not conflict on the field extracted by `f`. -/
def compat {β : Type} (f : TxOption → Option β) (x y : TxOption) : Prop :=
  ∀ a b, f x = some a → f y = some b → a = b

/-- The accumulator produced by one conflict-free `mergeOptions` iteration:
each field the option sets overwrites the accumulator field (with the value
both agree on), and `setReadLevel` is marked once either side set it. -/
def mergeCombine (acc o : TxOption) : TxOption :=
  { Propagation :=
      if o.Propagation ≠ PropagationDefault then o.Propagation else acc.Propagation,
    txOptions :=
      { isolation :=
          if o.txOptions.isolation ≠ 0 then o.txOptions.isolation
          else acc.txOptions.isolation,
        readOnly :=
          if o.setReadLevel then o.txOptions.readOnly else acc.txOptions.readOnly },
    setReadLevel := acc.setReadLevel || o.setReadLevel }

/-- Concrete hook that returns no error (used by closed instantiations). -/
def hookOk : TxHookFunc := fun _ => HookRes.ok
/-- Concrete hook that returns an error (used by closed instantiations). -/
def hookUserErr : TxHookFunc := fun _ => HookRes.err (Err.user "x")
/-- Concrete hook that panics (used by closed instantiations). -/
def hookBoom : TxHookFunc := fun _ => HookRes.panicked "boom"

/-- Outcome contract shared by all strategies that begin a new transaction:
given that the begin primitive succeeds, a unit-of-work error is returned
unchanged with the transaction rolled back and the container never executed
(no `hooksExecuted` event, container left unexecuted with the registered
hooks); a unit-of-work success with a successful commit yields a `none`
result with the registered hooks executed synchronously (the
`hooksExecuted` event precedes the return) and the hook errors absent from
the result. -/
def NewTxOutcome (env : DbEnv) (baseCtx : Ctx) (db : DBRef) (fn : Uow)
    (σ : St) (res : Option Err × St) : Prop :=
  (∀ e : Err, (fn (beginNewUowCtx db baseCtx σ)).2 = some e →
     res =
       (some e,
        { σ with
          hooksStore := σ.hooksStore ++ [⟨(fn (beginNewUowCtx db baseCtx σ)).1, false⟩],
          nextTx := σ.nextTx + 1,
          events := σ.events ++
            [Ev.beginTx db.session σ.nextTx,
             Ev.uowInvoked (beginNewUowCtx db baseCtx σ),
             Ev.rollbackTx σ.nextTx] })) ∧
  ((fn (beginNewUowCtx db baseCtx σ)).2 = none → env.commitErr = none →
     res =
       (none,
        { σ with
          hooksStore := σ.hooksStore ++ [⟨[], true⟩],
          nextTx := σ.nextTx + 1,
          events := σ.events ++
            [Ev.beginTx db.session σ.nextTx,
             Ev.uowInvoked (beginNewUowCtx db baseCtx σ),
             Ev.commitTx σ.nextTx,
             Ev.hooksExecuted σ.hooksStore.length (fn (beginNewUowCtx db baseCtx σ)).1
               ((fn (beginNewUowCtx db baseCtx σ)).1.filterMap
                 (runHook { baseCtx with txHooks := some σ.hooksStore.length }))] }))

/-! ### Lemmas and claim theorems -/

lemma mergeOptions_single_prop (p : PropagationLevel) :
    mergeOptions [TxOptionWithPropagation p] = ({ Propagation := p }, none) := by
  by_cases hp : p = 0 <;>
    simp [mergeOptions, mergeLoop, mergeIter, TxOptionWithPropagation,
      TxOption.WithPropagation, PropagationDefault, hp]

lemma DoInTransaction_switch {opts : List TxOption} {m : TxOption}
    (hm : mergeOptions opts = (m, none)) {ctx : Ctx} {db : DBRef}
    (hdb : GetDB ctx = some db) (env : DbEnv) (fn : Uow) (σ : St) :
    DoInTransaction env ctx fn opts σ =
      propagationSwitch env ctx fn db (fillOptionDefaults m).Propagation σ := by
  simp [DoInTransaction, hm, hdb]

lemma fillOptionDefaults_prop (p : PropagationLevel) (hp : p ≠ 0) :
    (fillOptionDefaults { Propagation := p } : TxOption).Propagation = p := by
  simp [fillOptionDefaults, PropagationDefault, hp]

/-- C10: seeding a root session is idempotent — `WithDB` applied to a
context in which `GetDB` already finds a session returns the input context
unchanged, so seeding an empty context twice (the second time with a
different session) leaves the first session in effect as reported by
`GetDB`. -/
theorem withDB_seeding_idempotent :
    (∀ (ctx : Ctx) (s : DBRef), (GetDB ctx).isSome → WithDB ctx s = ctx) ∧
    (∀ (ctx : Ctx) (s1 s2 : DBRef), GetDB ctx = none →
      GetDB (WithDB (WithDB ctx s1) s2) = some s1) := by
  constructor
  · intro ctx s h
    simp [WithDB, h]
  · intro ctx s1 s2 h
    have htx : ctx.txDB = none := by
      cases hx : ctx.txDB with
      | none => rfl
      | some tx => simp [GetDB, hx] at h
    have hroot : ctx.rootDB = none := by
      simpa [GetDB, htx] using h
    simp [WithDB, GetDB, htx, hroot]

theorem withDB_seeding_idempotent_w :
    GetDB (WithDB (WithDB { } ⟨1, none⟩) ⟨2, none⟩) = some ⟨1, none⟩ ∧
      (⟨1, none⟩ : DBRef) ≠ ⟨2, none⟩ :=
  ⟨withDB_seeding_idempotent.2 { } ⟨1, none⟩ ⟨2, none⟩ rfl, by decide⟩

/-- C5: MANDATORY with no ambient transaction fails with
`ErrNoTransaction`, and NEVER with an ambient transaction fails with
`ErrTransactionPresent`; in both cases the execution state is returned
unchanged, so the unit-of-work is never invoked and no transaction side
effect (no begin, no rollback) occurs. -/
theorem mandatory_never_contract :
    ∀ (env : DbEnv) (ctx : Ctx) (fn : Uow) (σ : St) (db : DBRef),
      GetDB ctx = some db →
      ((ctxTx ctx = none →
          DoInTransaction env ctx fn [TxOptionWithPropagation PropagationMandatory] σ =
            (some Err.noTransaction, σ)) ∧
       (∀ tx, ctxTx ctx = some tx →
          DoInTransaction env ctx fn [TxOptionWithPropagation PropagationNever] σ =
            (some Err.transactionPresent, σ))) := by
  intro env ctx fn σ db hdb
  constructor
  · intro htx
    rw [DoInTransaction_switch (mergeOptions_single_prop _) hdb,
      fillOptionDefaults_prop _ (by decide)]
    simp [propagationSwitch, PropagationMandatory, PropagationRequired,
      PropagationRequiresNew, PropagationSupports, PropagationNotSupported, htx]
  · intro tx htx
    rw [DoInTransaction_switch (mergeOptions_single_prop _) hdb,
      fillOptionDefaults_prop _ (by decide)]
    simp [propagationSwitch, PropagationNever, PropagationRequired,
      PropagationRequiresNew, PropagationSupports, PropagationNotSupported,
      PropagationMandatory, htx]

theorem mandatory_never_contract_w :
    DoInTransaction { } { rootDB := some ⟨1, none⟩ } (fun _ => ([], none))
        [TxOptionWithPropagation PropagationMandatory] { } =
      (some Err.noTransaction, { }) ∧
    DoInTransaction { } { rootDB := some ⟨1, none⟩, txDB := some ⟨1, some 0⟩ }
        (fun _ => ([], none)) [TxOptionWithPropagation PropagationNever] { } =
      (some Err.transactionPresent, { }) :=
  ⟨(mandatory_never_contract { } { rootDB := some ⟨1, none⟩ } (fun _ => ([], none))
      { } ⟨1, none⟩ rfl).1 rfl,
   (mandatory_never_contract { } { rootDB := some ⟨1, none⟩, txDB := some ⟨1, some 0⟩ }
      (fun _ => ([], none)) { } ⟨1, some 0⟩ rfl).2 ⟨1, some 0⟩ rfl⟩

/-- C7: NOT_SUPPORTED with an ambient transaction present hands the
unit-of-work `newDB.WithContext(ctx).Statement.Context`, which is the
original transaction-carrying context itself, so `GetTx` on the context
the unit-of-work receives reports the ambient transaction as found — the
active transaction handle remains observable instead of being
suspended. -/
theorem notSupported_ambient_tx_observable :
    (DoInTransaction { } { rootDB := some ⟨1, none⟩, txDB := some ⟨1, some 10⟩ }
        (fun _ => ([], none)) [TxOptionWithPropagation PropagationNotSupported] { }).2.events =
      [Ev.uowInvoked { rootDB := some ⟨1, none⟩, txDB := some ⟨1, some 10⟩ }] ∧
    GetTx { rootDB := some ⟨1, none⟩, txDB := some ⟨1, some 10⟩ } = some ⟨1, some 10⟩ :=
  ⟨rfl, rfl⟩

/-- C8 counterexample: the unrecognized propagation value 99 is accepted by
`mergeOptions` without error (no resolver-level rejection), and
`DoInTransaction` reaches the switch's default branch, which returns
`ErrMultiplePropagation` — the default branch is reachable for
resolver-accepted options. -/
theorem unknownPropagation_resolver_accepts :
    (mergeOptions [TxOptionWithPropagation 99]).2 = none ∧
    DoInTransaction { } { rootDB := some ⟨1, none⟩ } (fun _ => ([], none))
        [TxOptionWithPropagation 99] { } = (some Err.multiplePropagation, { }) :=
  ⟨rfl, rfl⟩

/-- C8 amended: for every unrecognized propagation value (above
`PropagationNested`), `mergeOptions` accepts the option without error, so
the value reaches `DoInTransaction`'s switch, whose default branch rejects
it with `ErrMultiplePropagation`, the state untouched and no transaction
begun. -/
theorem unknownPropagation_rejected_by_engine_default :
    ∀ (env : DbEnv) (ctx : Ctx) (fn : Uow) (σ : St) (db : DBRef) (p : PropagationLevel),
      GetDB ctx = some db → PropagationNested < p →
      (mergeOptions [TxOptionWithPropagation p]).2 = none ∧
      DoInTransaction env ctx fn [TxOptionWithPropagation p] σ =
        (some Err.multiplePropagation, σ) := by
  intro env ctx fn σ db p hdb hp
  have hne : ∀ k : PropagationLevel, k ≤ PropagationNested → p ≠ k := by
    intro k hk
    exact Nat.ne_of_gt (lt_of_le_of_lt hk hp)
  refine ⟨by rw [mergeOptions_single_prop], ?_⟩
  rw [DoInTransaction_switch (mergeOptions_single_prop _) hdb,
    fillOptionDefaults_prop _ (hne 0 (by decide))]
  simp [propagationSwitch, PropagationRequired, PropagationRequiresNew,
    PropagationSupports, PropagationNotSupported, PropagationMandatory,
    PropagationNever, PropagationNested,
    hne 1 (by decide), hne 2 (by decide), hne 3 (by decide),
    hne 4 (by decide), hne 5 (by decide), hne 6 (by decide),
    hne 7 (by decide)]

theorem unknownPropagation_rejected_by_engine_default_w :
    PropagationNested < 99 ∧
    DoInTransaction { } { rootDB := some ⟨1, none⟩ } (fun _ => ([], none))
        [TxOptionWithPropagation 99] { } = (some Err.multiplePropagation, { }) :=
  ⟨by decide,
   (unknownPropagation_rejected_by_engine_default { } { rootDB := some ⟨1, none⟩ }
      (fun _ => ([], none)) { } ⟨1, none⟩ 99 rfl (by decide)).2⟩

/-- C9: when no ambient transaction is present, NESTED is equivalent to
REQUIRED — `DoInTransaction` produces identical results for the two modes,
the NESTED mode enters the same `beginNewTransactionWithHooks` path (which
creates a fresh `HooksContainer`), and `runNestedUsingSavepoint`'s
defensive fallback likewise reduces to that path. -/
theorem nested_noAmbient_equiv_required :
    ∀ (env : DbEnv) (ctx : Ctx) (fn : Uow) (σ : St) (db : DBRef),
      ctxTx ctx = none →
      (DoInTransaction env ctx fn [TxOptionWithPropagation PropagationNested] σ =
         DoInTransaction env ctx fn [TxOptionWithPropagation PropagationRequired] σ) ∧
      (GetDB ctx = some db →
         DoInTransaction env ctx fn [TxOptionWithPropagation PropagationNested] σ =
           beginNewTransactionWithHooks env ctx db fn σ) ∧
      runNestedUsingSavepoint env ctx db fn σ = beginNewTransactionWithHooks env ctx db fn σ := by
  intro env ctx fn σ db htx
  have hnested : ∀ d, GetDB ctx = some d →
      DoInTransaction env ctx fn [TxOptionWithPropagation PropagationNested] σ =
        beginNewTransactionWithHooks env ctx d fn σ := by
    intro d hd
    rw [DoInTransaction_switch (mergeOptions_single_prop _) hd,
      fillOptionDefaults_prop _ (by decide)]
    simp [propagationSwitch, PropagationRequired, PropagationRequiresNew,
      PropagationSupports, PropagationNotSupported, PropagationMandatory,
      PropagationNever, PropagationNested, htx]
  refine ⟨?_, hnested db, by simp [runNestedUsingSavepoint, htx]⟩
  cases hd : GetDB ctx with
  | none =>
      simp [DoInTransaction, mergeOptions_single_prop, hd]
  | some d =>
      rw [hnested d hd, DoInTransaction_switch (mergeOptions_single_prop _) hd,
        fillOptionDefaults_prop _ (by decide)]
      simp [propagationSwitch, PropagationRequired, htx]

theorem nested_noAmbient_equiv_required_w :
    DoInTransaction { } { rootDB := some ⟨1, none⟩ } (fun _ => ([], none))
        [TxOptionWithPropagation PropagationNested] { } =
      DoInTransaction { } { rootDB := some ⟨1, none⟩ } (fun _ => ([], none))
        [TxOptionWithPropagation PropagationRequired] { } :=
  (nested_noAmbient_equiv_required { } { rootDB := some ⟨1, none⟩ }
      (fun _ => ([], none)) { } ⟨1, none⟩ rfl).1

lemma hcRun_append (ctx : Ctx) (hc : HooksContainer) (l1 l2 : List HCOp) :
    hcRun ctx hc (l1 ++ l2) =
      ((hcRun ctx (hcRun ctx hc l1).1 l2).1,
       (hcRun ctx hc l1).2 ++ (hcRun ctx (hcRun ctx hc l1).1 l2).2) := by
  induction l1 generalizing hc with
  | nil => simp [hcRun]
  | cons op rest ih =>
      cases op with
      | add h => simp [hcRun, hcStep, ih]
      | exec => simp [hcRun, hcStep, ih]

lemma hcRun_noExec (pre : List HCOp) (ctx : Ctx) (hs : List TxHookFunc)
    (hpre : countExec pre = 0) :
    hcRun ctx ⟨hs, false⟩ pre = (⟨hs ++ hooksOf pre, false⟩, []) := by
  induction pre generalizing hs with
  | nil => simp [hcRun, hooksOf]
  | cons op rest ih =>
      cases op with
      | add h =>
          rw [countExec] at hpre
          simp [hcRun, hcStep, HooksContainer.addHook, hooksOf, ih _ hpre]
      | exec => simp [countExec] at hpre

lemma hcRun_executed (ops : List HCOp) (ctx : Ctx) :
    hcRun ctx ⟨[], true⟩ ops =
      (⟨[], true⟩, List.replicate (countExec ops) ([], [])) := by
  induction ops with
  | nil => simp [hcRun, countExec]
  | cons op rest ih =>
      cases op with
      | add h => simp [hcRun, hcStep, HooksContainer.addHook, countExec, ih]
      | exec =>
          simp [hcRun, hcStep, HooksContainer.Execute, HooksContainer.execRan,
            countExec, List.replicate_succ, ih]

/-- C2: for every serialized sequence of `addHook` / `Execute` operations on
a fresh `HooksContainer` (the mutex serializes concurrent calls), the first
`Execute` runs exactly the hooks registered before it, once each and in
registration order, and returns the collected errors; every subsequent
`Execute` returns an empty list without running any hook; and every
`addHook` performed after an `Execute` is silently dropped — it is never
run and produces no output. -/
theorem hooksContainer_exactly_once (pre post : List HCOp) (ctx : Ctx)
    (hpre : countExec pre = 0) :
    hcRun ctx ⟨[], false⟩ (pre ++ HCOp.exec :: post) =
      (⟨[], true⟩,
       (hooksOf pre, (hooksOf pre).filterMap (runHook ctx)) ::
         List.replicate (countExec post) ([], [])) := by
  rw [hcRun_append, hcRun_noExec pre ctx [] hpre]
  simp [hcRun, hcStep, HooksContainer.Execute, HooksContainer.execRan, hcRun_executed]

theorem hooksContainer_exactly_once_w :
    hcRun { } ⟨[], false⟩
        ([HCOp.add hookOk, HCOp.add hookBoom] ++
          HCOp.exec :: [HCOp.add hookUserErr, HCOp.exec]) =
      (⟨[], true⟩,
       ([hookOk, hookBoom], [Err.hookPanic "boom" debugStack]) :: [([], [])]) := by
  rw [hooksContainer_exactly_once [HCOp.add hookOk, HCOp.add hookBoom]
    [HCOp.add hookUserErr, HCOp.exec] { } rfl]
  rfl

/-- C3: an `Execute` call on an unexecuted container runs the registered
hooks sequentially in registration order (`execRan` is the full list); a
hook that panics is converted into an error carrying the recovered value
and a diagnostic stack trace while all remaining hooks still run, and the
errors of all failing hooks are returned in one list in registration order
(`filterMap` over the hooks). -/
theorem execute_fault_isolation (hs : List TxHookFunc) (ctx : Ctx) :
    (⟨hs, false⟩ : HooksContainer).execRan = hs ∧
    ((⟨hs, false⟩ : HooksContainer).Execute ctx).2 = hs.filterMap (runHook ctx) ∧
    (∀ (h : TxHookFunc) (m : String), h ctx = HookRes.panicked m →
      runHook ctx h = some (Err.hookPanic m debugStack)) ∧
    (∀ (h : TxHookFunc) (e : Err), h ctx = HookRes.err e → runHook ctx h = some e) ∧
    (∀ h : TxHookFunc, h ctx = HookRes.ok → runHook ctx h = none) := by
  refine ⟨rfl, by simp [HooksContainer.Execute], ?_, ?_, ?_⟩
  · intro h m hm; simp [runHook, hm]
  · intro h e he; simp [runHook, he]
  · intro h ho; simp [runHook, ho]

theorem execute_fault_isolation_w :
    ((⟨[hookOk, hookBoom, hookUserErr], false⟩ : HooksContainer).Execute { }).2 =
      [Err.hookPanic "boom" debugStack, Err.user "x"] ∧
    runHook { } hookBoom = some (Err.hookPanic "boom" debugStack) := by
  have h := execute_fault_isolation [hookOk, hookBoom, hookUserErr] { }
  exact ⟨by rw [h.2.1]; rfl, h.2.2.1 hookBoom "boom" rfl⟩

lemma get?_append_length {α : Type} (pre : List α) (a : α) :
    (pre ++ [a]).get? pre.length = some a := by
  induction pre with
  | nil => rfl
  | cons x xs ih => simp [ih]

lemma set_append_length {α : Type} (pre : List α) (a b : α) :
    (pre ++ [a]).set pre.length b = pre ++ [b] := by
  induction pre with
  | nil => rfl
  | cons x xs ih => simp [ih]

lemma afterCommit_fold (c : Ctx) (pre : List HooksContainer)
    (hcid : c.txHooks = some pre.length) (hs : List TxHookFunc)
    (hcs : List TxHookFunc) :
    hs.foldl (fun st h => AfterCommit c h st) (pre ++ [⟨hcs, false⟩]) =
      pre ++ [⟨hcs ++ hs, false⟩] := by
  induction hs generalizing hcs with
  | nil => simp
  | cons h t ih =>
      have hstep : AfterCommit c h (pre ++ [⟨hcs, false⟩]) = pre ++ [⟨hcs ++ [h], false⟩] := by
        simp [AfterCommit, hcid, get?_append_length, set_append_length,
          HooksContainer.addHook]
      simp only [List.foldl_cons, hstep, ih (hcs ++ [h]), List.append_assoc,
        List.singleton_append]

lemma beginNew_uow_err (env : DbEnv) (baseCtx : Ctx) (db : DBRef) (fn : Uow)
    (σ : St) (e : Err) (hb : env.beginErr = none)
    (hf : (fn (beginNewUowCtx db baseCtx σ)).2 = some e) :
    beginNewTransactionWithHooks env baseCtx db fn σ =
      (some e,
       { σ with
         hooksStore := σ.hooksStore ++ [⟨(fn (beginNewUowCtx db baseCtx σ)).1, false⟩],
         nextTx := σ.nextTx + 1,
         events := σ.events ++
           [Ev.beginTx db.session σ.nextTx,
            Ev.uowInvoked (beginNewUowCtx db baseCtx σ),
            Ev.rollbackTx σ.nextTx] }) := by
  have hfold := afterCommit_fold (beginNewUowCtx db baseCtx σ) σ.hooksStore rfl
    (fn (beginNewUowCtx db baseCtx σ)).1 []
  simp only [List.nil_append] at hfold
  simp only [beginNewTransactionWithHooks, gormTransaction, hb, runUow,
    beginNewUowCtx] at *
  simp only [hfold, hf]
  simp [List.append_assoc]

lemma beginNew_uow_ok (env : DbEnv) (baseCtx : Ctx) (db : DBRef) (fn : Uow)
    (σ : St) (hb : env.beginErr = none) (hc : env.commitErr = none)
    (hf : (fn (beginNewUowCtx db baseCtx σ)).2 = none) :
    beginNewTransactionWithHooks env baseCtx db fn σ =
      (none,
       { σ with
         hooksStore := σ.hooksStore ++ [⟨[], true⟩],
         nextTx := σ.nextTx + 1,
         events := σ.events ++
           [Ev.beginTx db.session σ.nextTx,
            Ev.uowInvoked (beginNewUowCtx db baseCtx σ),
            Ev.commitTx σ.nextTx,
            Ev.hooksExecuted σ.hooksStore.length (fn (beginNewUowCtx db baseCtx σ)).1
              ((fn (beginNewUowCtx db baseCtx σ)).1.filterMap
                (runHook { baseCtx with txHooks := some σ.hooksStore.length }))] }) := by
  have hfold := afterCommit_fold (beginNewUowCtx db baseCtx σ) σ.hooksStore rfl
    (fn (beginNewUowCtx db baseCtx σ)).1 []
  simp only [List.nil_append] at hfold
  simp only [beginNewTransactionWithHooks, gormTransaction, hb, hc, runUow,
    beginNewUowCtx] at *
  simp only [hfold, hf]
  simp only [executeHooks, get?_append_length, set_append_length,
    HooksContainer.Execute, HooksContainer.execRan]
  simp [List.append_assoc]

lemma beginNewOnNewSession_eq (env : DbEnv) (baseCtx : Ctx) (db : DBRef)
    (fn : Uow) (σ : St) :
    beginNewTransactionWithHooksOnNewSession env baseCtx db fn σ =
      beginNewTransactionWithHooks env baseCtx db fn σ := rfl

/-- C1: for every unit-of-work and every strategy that begins a new
transaction (REQUIRED with no ambient transaction, NESTED with no ambient
transaction, and REQUIRES_NEW), provided the begin primitive succeeds: a
unit-of-work error is returned unchanged by `DoInTransaction`, the
transaction is rolled back, and the registered post-commit hooks never
execute; a unit-of-work success followed by a successful commit makes the
hooks of the transaction's container execute synchronously before
`DoInTransaction` returns, and hook errors never appear in the returned
value, which is `none`. -/
theorem newTransaction_hooks_commit_gate :
    ∀ (env : DbEnv) (ctx : Ctx) (fn : Uow) (σ : St) (db : DBRef),
      GetDB ctx = some db → env.beginErr = none →
      ((ctxTx ctx = none →
          NewTxOutcome env ctx db fn σ
            (DoInTransaction env ctx fn [TxOptionWithPropagation PropagationRequired] σ) ∧
          NewTxOutcome env ctx db fn σ
            (DoInTransaction env ctx fn [TxOptionWithPropagation PropagationNested] σ)) ∧
       NewTxOutcome env ctx db fn σ
         (DoInTransaction env ctx fn [TxOptionWithPropagation PropagationRequiresNew] σ)) := by
  intro env ctx fn σ db hdb hb
  have hout : NewTxOutcome env ctx db fn σ (beginNewTransactionWithHooks env ctx db fn σ) := by
    constructor
    · intro e hf
      exact beginNew_uow_err env ctx db fn σ e hb hf
    · intro hf hc
      exact beginNew_uow_ok env ctx db fn σ hb hc hf
  refine ⟨fun htx => ⟨?_, ?_⟩, ?_⟩
  · rw [DoInTransaction_switch (mergeOptions_single_prop _) hdb,
      fillOptionDefaults_prop _ (by decide)]
    simpa [propagationSwitch, PropagationRequired, htx] using hout
  · rw [DoInTransaction_switch (mergeOptions_single_prop _) hdb,
      fillOptionDefaults_prop _ (by decide)]
    simpa [propagationSwitch, PropagationRequired, PropagationRequiresNew,
      PropagationSupports, PropagationNotSupported, PropagationMandatory,
      PropagationNever, PropagationNested, htx] using hout
  · rw [DoInTransaction_switch (mergeOptions_single_prop _) hdb,
      fillOptionDefaults_prop _ (by decide)]
    simpa [propagationSwitch, PropagationRequired, PropagationRequiresNew,
      beginNewOnNewSession_eq] using hout

theorem newTransaction_hooks_commit_gate_w :
    DoInTransaction { } { rootDB := some ⟨1, none⟩ }
        (fun _ => ([hookOk, hookBoom], none))
        [TxOptionWithPropagation PropagationRequired] { } =
      (none,
       { hooksStore := [⟨[], true⟩], nextTx := 1, nextSp := 0,
         events := [Ev.beginTx 1 0,
           Ev.uowInvoked
             { rootDB := some ⟨1, none⟩, txDB := some ⟨1, some 0⟩, txHooks := some 0 },
           Ev.commitTx 0,
           Ev.hooksExecuted 0 [hookOk, hookBoom]
             [Err.hookPanic "boom" debugStack]] }) := by
  have h := ((newTransaction_hooks_commit_gate { } { rootDB := some ⟨1, none⟩ }
      (fun _ => ([hookOk, hookBoom], none)) { } ⟨1, none⟩ rfl rfl).1 rfl).1.2 rfl rfl
  rw [h]
  rfl

/-- C6: NESTED with an ambient transaction creates a savepoint on the
current transaction and invokes the unit-of-work with the same tx-aware
base context (same active-transaction handle); on unit-of-work failure
with a successful rollback to that savepoint, exactly the original error
is propagated; on success no further action is taken and the call returns
success. -/
theorem nested_savepoint_contract :
    ∀ (env : DbEnv) (ctx : Ctx) (fn : Uow) (σ : St) (db tx : DBRef),
      GetDB ctx = some db → ctxTx ctx = some tx → env.savepointErr = none →
      ((∀ e : Err, (fn ctx).2 = some e → env.rollbackToErr = none →
          DoInTransaction env ctx fn [TxOptionWithPropagation PropagationNested] σ =
            (some e,
             { σ with
               nextSp := σ.nextSp + 1,
               hooksStore := (fn ctx).1.foldl (fun st h => AfterCommit ctx h st) σ.hooksStore,
               events := σ.events ++
                 [Ev.savepointCreate tx ("sp_" ++ toString σ.nextSp),
                  Ev.uowInvoked ctx,
                  Ev.rollbackToSavepoint tx ("sp_" ++ toString σ.nextSp)] })) ∧
       ((fn ctx).2 = none →
          DoInTransaction env ctx fn [TxOptionWithPropagation PropagationNested] σ =
            (none,
             { σ with
               nextSp := σ.nextSp + 1,
               hooksStore := (fn ctx).1.foldl (fun st h => AfterCommit ctx h st) σ.hooksStore,
               events := σ.events ++
                 [Ev.savepointCreate tx ("sp_" ++ toString σ.nextSp),
                  Ev.uowInvoked ctx] }))) := by
  intro env ctx fn σ db tx hdb htx hsp
  have hsw : DoInTransaction env ctx fn [TxOptionWithPropagation PropagationNested] σ =
      runNestedUsingSavepoint env ctx db fn σ := by
    rw [DoInTransaction_switch (mergeOptions_single_prop _) hdb,
      fillOptionDefaults_prop _ (by decide)]
    simp [propagationSwitch, PropagationRequired, PropagationRequiresNew,
      PropagationSupports, PropagationNotSupported, PropagationMandatory,
      PropagationNever, PropagationNested, htx]
  constructor
  · intro e hf hrb
    rw [hsw]
    simp only [runNestedUsingSavepoint, htx, generateSavepointName, hsp, runUow, hf, hrb]
    simp [List.append_assoc]
  · intro hf
    rw [hsw]
    simp only [runNestedUsingSavepoint, htx, generateSavepointName, hsp, runUow, hf]
    simp [List.append_assoc]

theorem nested_savepoint_contract_w :
    DoInTransaction { } { rootDB := some ⟨1, none⟩, txDB := some ⟨1, some 10⟩ }
        (fun _ => ([], some (Err.user "inner fails")))
        [TxOptionWithPropagation PropagationNested] { } =
      (some (Err.user "inner fails"),
       { hooksStore := [], nextTx := 0, nextSp := 1,
         events := [Ev.savepointCreate ⟨1, some 10⟩ "sp_0",
           Ev.uowInvoked { rootDB := some ⟨1, none⟩, txDB := some ⟨1, some 10⟩ },
           Ev.rollbackToSavepoint ⟨1, some 10⟩ "sp_0"] }) := by
  have h := (nested_savepoint_contract { }
      { rootDB := some ⟨1, none⟩, txDB := some ⟨1, some 10⟩ }
      (fun _ => ([], some (Err.user "inner fails"))) { } ⟨1, some 10⟩ ⟨1, some 10⟩
      rfl rfl rfl).1 (Err.user "inner fails") rfl rfl
  rw [h]
  rfl

lemma mergeIter_no_conflict (acc o : TxOption) (hp : compat propOf acc o)
    (hi : compat isoOf acc o) (hr : compat roOf acc o) :
    mergeIter acc o = (mergeCombine acc o, none) := by
  have hp' : ¬ (o.Propagation ≠ PropagationDefault ∧
      acc.Propagation ≠ PropagationDefault ∧ o.Propagation ≠ acc.Propagation) := by
    rintro ⟨h1, h2, h3⟩
    exact h3 ((hp acc.Propagation o.Propagation (by simp [propOf, h2])
      (by simp [propOf, h1])).symm)
  have hi' : ¬ (o.txOptions.isolation ≠ 0 ∧
      acc.txOptions.isolation ≠ 0 ∧ o.txOptions.isolation ≠ acc.txOptions.isolation) := by
    rintro ⟨h1, h2, h3⟩
    exact h3 ((hi acc.txOptions.isolation o.txOptions.isolation
      (by simp [isoOf, h2]) (by simp [isoOf, h1])).symm)
  have hr' : ¬ (o.setReadLevel = true ∧ acc.setReadLevel = true ∧
      acc.txOptions.readOnly ≠ o.txOptions.readOnly) := by
    rintro ⟨h1, h2, h3⟩
    exact h3 (hr acc.txOptions.readOnly o.txOptions.readOnly
      (by simp [roOf, h2]) (by simp [roOf, h1]))
  by_cases hop : o.Propagation = PropagationDefault <;>
    by_cases hoi : o.txOptions.isolation = 0 <;>
    by_cases hor : o.setReadLevel = true <;>
    simp_all [mergeIter, mergeCombine] <;>
    aesop

lemma mergeIter_prop_conflict (acc o : TxOption) (h1 : o.Propagation ≠ PropagationDefault)
    (h2 : acc.Propagation ≠ PropagationDefault) (h3 : o.Propagation ≠ acc.Propagation) :
    mergeIter acc o = (acc, some Err.multiplePropagation) := by
  simp [mergeIter, h1, h2, h3]

lemma mergeIter_iso_conflict (acc o : TxOption) (hp : compat propOf acc o)
    (h1 : o.txOptions.isolation ≠ 0) (h2 : acc.txOptions.isolation ≠ 0)
    (h3 : o.txOptions.isolation ≠ acc.txOptions.isolation) :
    (mergeIter acc o).2 = some Err.multipleIsolation := by
  have hp' : ¬ (o.Propagation ≠ PropagationDefault ∧
      acc.Propagation ≠ PropagationDefault ∧ o.Propagation ≠ acc.Propagation) := by
    rintro ⟨g1, g2, g3⟩
    exact g3 ((hp acc.Propagation o.Propagation (by simp [propOf, g2])
      (by simp [propOf, g1])).symm)
  by_cases hop : o.Propagation = PropagationDefault <;>
    simp_all [mergeIter] <;> aesop

lemma mergeIter_ro_conflict (acc o : TxOption) (hp : compat propOf acc o)
    (hi : compat isoOf acc o) (h1 : o.setReadLevel = true)
    (h2 : acc.setReadLevel = true)
    (h3 : acc.txOptions.readOnly ≠ o.txOptions.readOnly) :
    (mergeIter acc o).2 = some Err.multipleReadLevel := by
  have hp' : ¬ (o.Propagation ≠ PropagationDefault ∧
      acc.Propagation ≠ PropagationDefault ∧ o.Propagation ≠ acc.Propagation) := by
    rintro ⟨g1, g2, g3⟩
    exact g3 ((hp acc.Propagation o.Propagation (by simp [propOf, g2])
      (by simp [propOf, g1])).symm)
  have hi' : ¬ (o.txOptions.isolation ≠ 0 ∧
      acc.txOptions.isolation ≠ 0 ∧ o.txOptions.isolation ≠ acc.txOptions.isolation) := by
    rintro ⟨g1, g2, g3⟩
    exact g3 ((hi acc.txOptions.isolation o.txOptions.isolation
      (by simp [isoOf, g2]) (by simp [isoOf, g1])).symm)
  by_cases hop : o.Propagation = PropagationDefault <;>
    by_cases hoi : o.txOptions.isolation = 0 <;>
    simp_all [mergeIter] <;> aesop

lemma propOf_mergeCombine (acc o : TxOption) (hp : compat propOf acc o) :
    propOf (mergeCombine acc o) = (propOf acc).or (propOf o) := by
  by_cases hop : o.Propagation = PropagationDefault <;>
    by_cases hap : acc.Propagation = PropagationDefault <;>
    simp_all [propOf, mergeCombine, Option.or] <;>
    exact (hp acc.Propagation o.Propagation (by simp [propOf, hap])
      (by simp [propOf, hop])).symm

lemma isoOf_mergeCombine (acc o : TxOption) (hi : compat isoOf acc o) :
    isoOf (mergeCombine acc o) = (isoOf acc).or (isoOf o) := by
  by_cases hoi : o.txOptions.isolation = 0 <;>
    by_cases hai : acc.txOptions.isolation = 0 <;>
    simp_all [isoOf, mergeCombine, Option.or] <;>
    exact (hi acc.txOptions.isolation o.txOptions.isolation (by simp [isoOf, hai])
      (by simp [isoOf, hoi])).symm

lemma roOf_mergeCombine (acc o : TxOption) (hr : compat roOf acc o) :
    roOf (mergeCombine acc o) = (roOf acc).or (roOf o) := by
  by_cases hor : o.setReadLevel = true <;>
    by_cases har : acc.setReadLevel = true <;>
    simp_all [roOf, mergeCombine, Option.or] <;>
    exact (hr acc.txOptions.readOnly o.txOptions.readOnly (by simp [roOf, har])
      (by simp [roOf, hor])).symm

lemma agreeOn_compat_head {β : Type} (f : TxOption → Option β) (x y : TxOption)
    (l : List TxOption) (h : AgreeOn f (x :: y :: l)) : compat f x y := by
  intro a b ha hb
  have hma : a ∈ (x :: y :: l).filterMap f :=
    List.mem_filterMap.2 ⟨x, by simp, ha⟩
  have hmb : b ∈ (x :: y :: l).filterMap f :=
    List.mem_filterMap.2 ⟨y, by simp, hb⟩
  exact h a hma b hmb

lemma agreeOn_shrink {β : Type} (f : TxOption → Option β) (x y m : TxOption)
    (l : List TxOption) (hm : f m = (f x).or (f y))
    (h : AgreeOn f (x :: y :: l)) : AgreeOn f (m :: l) := by
  intro a ha b hb
  have key : ∀ c, c ∈ (m :: l).filterMap f → c ∈ (x :: y :: l).filterMap f := by
    intro c hc
    rcases List.mem_filterMap.1 hc with ⟨o, ho, hfo⟩
    rcases List.mem_cons.1 ho with rfl | ho'
    · rw [hm] at hfo
      cases hx : f x with
      | some u =>
          rw [hx, Option.or] at hfo
          exact List.mem_filterMap.2 ⟨x, by simp, hx.trans hfo⟩
      | none =>
          rw [hx, Option.or] at hfo
          exact List.mem_filterMap.2 ⟨y, by simp, hfo⟩
    · exact List.mem_filterMap.2 ⟨o, by simp [ho'], hfo⟩
  exact h a (key a ha) b (key b hb)

lemma agreeOn_expand {β : Type} (f : TxOption → Option β) (x y m : TxOption)
    (l : List TxOption) (hm : f m = (f x).or (f y)) (hc : compat f x y)
    (h : AgreeOn f (m :: l)) : AgreeOn f (x :: y :: l) := by
  intro a ha b hb
  have key : ∀ c, c ∈ (x :: y :: l).filterMap f → c ∈ (m :: l).filterMap f := by
    intro c hcm
    rcases List.mem_filterMap.1 hcm with ⟨o, ho, hfo⟩
    rcases List.mem_cons.1 ho with rfl | ho'
    · refine List.mem_filterMap.2 ⟨m, by simp, ?_⟩
      rw [hm, hfo, Option.or]
    · rcases List.mem_cons.1 ho' with rfl | ho''
      · refine List.mem_filterMap.2 ⟨m, by simp, ?_⟩
        cases hx : f x with
        | some u =>
            rw [hm, hx, Option.or, hc u c hx hfo]
        | none =>
            rw [hm, hx, Option.or, hfo]
      · exact List.mem_filterMap.2 ⟨o, by simp [ho''], hfo⟩
  exact h a (key a ha) b (key b hb)

lemma findSome?_cons_eq {β : Type} (f : TxOption → Option β) (x : TxOption)
    (l : List TxOption) :
    (x :: l).findSome? f = (f x).or (l.findSome? f) := by
  cases hx : f x <;> simp [List.findSome?_cons, hx, Option.or]

lemma firstSetD_shift {β : Type} (f : TxOption → Option β) (x y m : TxOption)
    (l : List TxOption) (dx dm : β) (hm : f m = (f x).or (f y))
    (hd : f m = none → dm = dx) :
    firstSetD f (x :: y :: l) dx = firstSetD f (m :: l) dm := by
  unfold firstSetD
  rw [findSome?_cons_eq, findSome?_cons_eq, findSome?_cons_eq, hm]
  cases hx : f x with
  | some u => simp [Option.or]
  | none =>
      cases hy : f y with
      | some v => simp [Option.or]
      | none =>
          cases hl : l.findSome? f with
          | some w => simp [Option.or]
          | none =>
              have := hd (by rw [hm, hx, hy]; rfl)
              simp [Option.or, this]

lemma firstSetD_self {β : Type} (f : TxOption → Option β) (x : TxOption) (d : β)
    (h : ∀ a, f x = some a → a = d) : firstSetD f [x] d = d := by
  unfold firstSetD
  cases hx : f x with
  | some u => simp [List.findSome?_cons, hx, h u hx]
  | none => simp [List.findSome?_cons, hx]

lemma propOf_self (acc : TxOption) : ∀ a, propOf acc = some a → a = acc.Propagation := by
  intro a ha
  by_cases h : acc.Propagation = PropagationDefault <;> simp [propOf, h] at ha <;>
    first
    | exact ha
    | exact ha.symm

lemma isoOf_self (acc : TxOption) : ∀ a, isoOf acc = some a → a = acc.txOptions.isolation := by
  intro a ha
  by_cases h : acc.txOptions.isolation = 0 <;> simp [isoOf, h] at ha <;>
    first
    | exact ha
    | exact ha.symm

lemma roOf_self (acc : TxOption) : ∀ a, roOf acc = some a → a = acc.txOptions.readOnly := by
  intro a ha
  by_cases h : acc.setReadLevel = true <;> simp [roOf, h] at ha
  exact ha.symm

lemma mergeCombine_prop_default (acc o : TxOption)
    (h : propOf (mergeCombine acc o) = none) :
    (mergeCombine acc o).Propagation = acc.Propagation := by
  by_cases hop : o.Propagation = PropagationDefault
  · simp [mergeCombine, hop]
  · simp [propOf, mergeCombine, hop] at h

lemma mergeCombine_iso_default (acc o : TxOption)
    (h : isoOf (mergeCombine acc o) = none) :
    (mergeCombine acc o).txOptions.isolation = acc.txOptions.isolation := by
  by_cases hoi : o.txOptions.isolation = 0
  · simp [mergeCombine, hoi]
  · simp [isoOf, mergeCombine, hoi] at h

lemma mergeCombine_ro_default (acc o : TxOption)
    (h : roOf (mergeCombine acc o) = none) :
    (mergeCombine acc o).txOptions.readOnly = acc.txOptions.readOnly := by
  by_cases hor : o.setReadLevel = true
  · simp [roOf, mergeCombine, hor] at h
  · simp [mergeCombine, hor]

lemma mergeLoop_agree (os : List TxOption) : ∀ acc : TxOption,
    AgreeOn propOf (acc :: os) → AgreeOn isoOf (acc :: os) → AgreeOn roOf (acc :: os) →
    mergeLoop acc os =
      ({ Propagation := firstSetD propOf (acc :: os) acc.Propagation,
         txOptions :=
           { isolation := firstSetD isoOf (acc :: os) acc.txOptions.isolation,
             readOnly := firstSetD roOf (acc :: os) acc.txOptions.readOnly },
         setReadLevel := acc.setReadLevel || os.any (fun o => o.setReadLevel) },
       none) := by
  induction os with
  | nil =>
      intro acc _ _ _
      rw [mergeLoop, firstSetD_self propOf acc _ (propOf_self acc),
        firstSetD_self isoOf acc _ (isoOf_self acc),
        firstSetD_self roOf acc _ (roOf_self acc)]
      simp
  | cons o rest ih =>
      intro acc hp hi hr
      have hcp := agreeOn_compat_head propOf acc o rest hp
      have hci := agreeOn_compat_head isoOf acc o rest hi
      have hcr := agreeOn_compat_head roOf acc o rest hr
      have hmp := propOf_mergeCombine acc o hcp
      have hmi := isoOf_mergeCombine acc o hci
      have hmr := roOf_mergeCombine acc o hcr
      have hp' := agreeOn_shrink propOf acc o _ rest hmp hp
      have hi' := agreeOn_shrink isoOf acc o _ rest hmi hi
      have hr' := agreeOn_shrink roOf acc o _ rest hmr hr
      have hloop : mergeLoop acc (o :: rest) = mergeLoop (mergeCombine acc o) rest := by
        simp [mergeLoop, mergeIter_no_conflict acc o hcp hci hcr]
      have e1 := firstSetD_shift propOf acc o (mergeCombine acc o) rest
        acc.Propagation (mergeCombine acc o).Propagation hmp
        (mergeCombine_prop_default acc o)
      have e2 := firstSetD_shift isoOf acc o (mergeCombine acc o) rest
        acc.txOptions.isolation (mergeCombine acc o).txOptions.isolation hmi
        (mergeCombine_iso_default acc o)
      have e3 := firstSetD_shift roOf acc o (mergeCombine acc o) rest
        acc.txOptions.readOnly (mergeCombine acc o).txOptions.readOnly hmr
        (mergeCombine_ro_default acc o)
      rw [hloop, ih (mergeCombine acc o) hp' hi' hr', e1, e2, e3]
      simp [mergeCombine, List.any_cons, Bool.or_assoc]

lemma agreeOn_singleton {β : Type} (f : TxOption → Option β) (x : TxOption) :
    AgreeOn f [x] := by
  intro a ha b hb
  rcases List.mem_filterMap.1 ha with ⟨o1, ho1, hf1⟩
  rcases List.mem_filterMap.1 hb with ⟨o2, ho2, hf2⟩
  simp at ho1 ho2
  subst ho1; subst ho2
  rw [hf1] at hf2
  exact Option.some_injective _ hf2

lemma agreeOn_not_shrink {β : Type} (f : TxOption → Option β) (x y m : TxOption)
    (l : List TxOption) (hm : f m = (f x).or (f y)) (hc : compat f x y)
    (h : ¬ AgreeOn f (x :: y :: l)) : ¬ AgreeOn f (m :: l) :=
  fun hagree => h (agreeOn_expand f x y m l hm hc hagree)

lemma mergeLoop_prop_conflict (os : List TxOption) : ∀ acc : TxOption,
    AgreeOn isoOf (acc :: os) → AgreeOn roOf (acc :: os) →
    ¬ AgreeOn propOf (acc :: os) →
    (mergeLoop acc os).2 = some Err.multiplePropagation := by
  induction os with
  | nil =>
      intro acc _ _ hp
      exact absurd (agreeOn_singleton propOf acc) hp
  | cons o rest ih =>
      intro acc hi hr hp
      by_cases hconf : o.Propagation ≠ PropagationDefault ∧
          acc.Propagation ≠ PropagationDefault ∧ o.Propagation ≠ acc.Propagation
      · simp [mergeLoop, mergeIter_prop_conflict acc o hconf.1 hconf.2.1 hconf.2.2]
      · have hcp : compat propOf acc o := by
          intro a b ha hb
          have haP : a = acc.Propagation := propOf_self acc a ha
          have hbP : b = o.Propagation := propOf_self o b hb
          have haset : acc.Propagation ≠ PropagationDefault := by
            intro h0; simp [propOf, h0] at ha
          have hbset : o.Propagation ≠ PropagationDefault := by
            intro h0; simp [propOf, h0] at hb
          subst haP; subst hbP
          by_contra hne
          exact hconf ⟨hbset, haset, fun hEq => hne hEq.symm⟩
        have hci := agreeOn_compat_head isoOf acc o rest hi
        have hcr := agreeOn_compat_head roOf acc o rest hr
        have hmp := propOf_mergeCombine acc o hcp
        have hmi := isoOf_mergeCombine acc o hci
        have hmr := roOf_mergeCombine acc o hcr
        have hloop : mergeLoop acc (o :: rest) = mergeLoop (mergeCombine acc o) rest := by
          simp [mergeLoop, mergeIter_no_conflict acc o hcp hci hcr]
        rw [hloop]
        exact ih (mergeCombine acc o)
          (agreeOn_shrink isoOf acc o _ rest hmi hi)
          (agreeOn_shrink roOf acc o _ rest hmr hr)
          (agreeOn_not_shrink propOf acc o _ rest hmp hcp hp)

lemma mergeLoop_iso_conflict (os : List TxOption) : ∀ acc : TxOption,
    AgreeOn propOf (acc :: os) → AgreeOn roOf (acc :: os) →
    ¬ AgreeOn isoOf (acc :: os) →
    (mergeLoop acc os).2 = some Err.multipleIsolation := by
  induction os with
  | nil =>
      intro acc _ _ hi
      exact absurd (agreeOn_singleton isoOf acc) hi
  | cons o rest ih =>
      intro acc hp hr hi
      have hcp := agreeOn_compat_head propOf acc o rest hp
      by_cases hconf : o.txOptions.isolation ≠ 0 ∧
          acc.txOptions.isolation ≠ 0 ∧ o.txOptions.isolation ≠ acc.txOptions.isolation
      · have h2 := mergeIter_iso_conflict acc o hcp hconf.1 hconf.2.1 hconf.2.2
        rcases hIt : mergeIter acc o with ⟨r, e'⟩
        rw [hIt] at h2
        simp at h2
        simp [mergeLoop, hIt, h2]
      · have hci : compat isoOf acc o := by
          intro a b ha hb
          have haI : a = acc.txOptions.isolation := isoOf_self acc a ha
          have hbI : b = o.txOptions.isolation := isoOf_self o b hb
          have haset : acc.txOptions.isolation ≠ 0 := by
            intro h0; simp [isoOf, h0] at ha
          have hbset : o.txOptions.isolation ≠ 0 := by
            intro h0; simp [isoOf, h0] at hb
          subst haI; subst hbI
          by_contra hne
          exact hconf ⟨hbset, haset, fun hEq => hne hEq.symm⟩
        have hcr := agreeOn_compat_head roOf acc o rest hr
        have hmp := propOf_mergeCombine acc o hcp
        have hmi := isoOf_mergeCombine acc o hci
        have hmr := roOf_mergeCombine acc o hcr
        have hloop : mergeLoop acc (o :: rest) = mergeLoop (mergeCombine acc o) rest := by
          simp [mergeLoop, mergeIter_no_conflict acc o hcp hci hcr]
        rw [hloop]
        exact ih (mergeCombine acc o)
          (agreeOn_shrink propOf acc o _ rest hmp hp)
          (agreeOn_shrink roOf acc o _ rest hmr hr)
          (agreeOn_not_shrink isoOf acc o _ rest hmi hci hi)

lemma mergeLoop_ro_conflict (os : List TxOption) : ∀ acc : TxOption,
    AgreeOn propOf (acc :: os) → AgreeOn isoOf (acc :: os) →
    ¬ AgreeOn roOf (acc :: os) →
    (mergeLoop acc os).2 = some Err.multipleReadLevel := by
  induction os with
  | nil =>
      intro acc _ _ hr
      exact absurd (agreeOn_singleton roOf acc) hr
  | cons o rest ih =>
      intro acc hp hi hr
      have hcp := agreeOn_compat_head propOf acc o rest hp
      have hci := agreeOn_compat_head isoOf acc o rest hi
      by_cases hconf : o.setReadLevel = true ∧ acc.setReadLevel = true ∧
          acc.txOptions.readOnly ≠ o.txOptions.readOnly
      · have h2 := mergeIter_ro_conflict acc o hcp hci hconf.1 hconf.2.1 hconf.2.2
        rcases hIt : mergeIter acc o with ⟨r, e'⟩
        rw [hIt] at h2
        simp at h2
        simp [mergeLoop, hIt, h2]
      · have hcr : compat roOf acc o := by
          intro a b ha hb
          have haR : a = acc.txOptions.readOnly := roOf_self acc a ha
          have hbR : b = o.txOptions.readOnly := roOf_self o b hb
          have haset : acc.setReadLevel = true := by
            by_contra h0
            simp [roOf, h0] at ha
          have hbset : o.setReadLevel = true := by
            by_contra h0
            simp [roOf, h0] at hb
          subst haR; subst hbR
          by_contra hne
          exact hconf ⟨hbset, haset, hne⟩
        have hmp := propOf_mergeCombine acc o hcp
        have hmi := isoOf_mergeCombine acc o hci
        have hmr := roOf_mergeCombine acc o hcr
        have hloop : mergeLoop acc (o :: rest) = mergeLoop (mergeCombine acc o) rest := by
          simp [mergeLoop, mergeIter_no_conflict acc o hcp hci hcr]
        rw [hloop]
        exact ih (mergeCombine acc o)
          (agreeOn_shrink propOf acc o _ rest hmp hp)
          (agreeOn_shrink isoOf acc o _ rest hmi hi)
          (agreeOn_not_shrink roOf acc o _ rest hmr hcr hr)

lemma agreeOn_cons_none {β : Type} (f : TxOption → Option β) (x : TxOption)
    (l : List TxOption) (hx : f x = none) : AgreeOn f (x :: l) ↔ AgreeOn f l := by
  unfold AgreeOn
  rw [show List.filterMap f (x :: l) = List.filterMap f l from by
    simp [List.filterMap_cons, hx]]

lemma firstSetD_cons_none {β : Type} (f : TxOption → Option β) (x : TxOption)
    (l : List TxOption) (d : β) (hx : f x = none) :
    firstSetD f (x :: l) d = firstSetD f l d := by
  simp [firstSetD, List.findSome?_cons, hx]

/-- C4: options merge field-independently — when all options that set a
field agree, `mergeOptions` succeeds and each field holds the first-set
value (idempotent merge of identical duplicates); when exactly one field
is set to different values, the merge fails with that field's conflict
error (`ErrMultiplePropagation` / `ErrMultipleIsolation` /
`ErrMultipleReadLevel`); and a merge error is returned by
`DoInTransaction` with the state untouched, before any transaction
begins. -/
theorem mergeOptions_field_contract :
    (∀ os : List TxOption, AgreeOn propOf os → AgreeOn isoOf os → AgreeOn roOf os →
       mergeOptions os =
         ({ Propagation := firstSetD propOf os PropagationDefault,
            txOptions := { isolation := firstSetD isoOf os 0,
                           readOnly := firstSetD roOf os false },
            setReadLevel := os.any (fun o => o.setReadLevel) }, none)) ∧
    (∀ os : List TxOption, AgreeOn isoOf os → AgreeOn roOf os → ¬ AgreeOn propOf os →
       (mergeOptions os).2 = some Err.multiplePropagation) ∧
    (∀ os : List TxOption, AgreeOn propOf os → AgreeOn roOf os → ¬ AgreeOn isoOf os →
       (mergeOptions os).2 = some Err.multipleIsolation) ∧
    (∀ os : List TxOption, AgreeOn propOf os → AgreeOn isoOf os → ¬ AgreeOn roOf os →
       (mergeOptions os).2 = some Err.multipleReadLevel) ∧
    (∀ (env : DbEnv) (ctx : Ctx) (fn : Uow) (σ : St) (os : List TxOption) (e : Err),
       (mergeOptions os).2 = some e →
       DoInTransaction env ctx fn os σ = (some e, σ)) := by
  have hp0 : propOf { } = none := rfl
  have hi0 : isoOf { } = none := rfl
  have hr0 : roOf { } = none := rfl
  refine ⟨?_, ?_, ?_, ?_, ?_⟩
  · intro os hp hi hr
    rw [mergeOptions, mergeLoop_agree os { }
      ((agreeOn_cons_none propOf { } os hp0).2 hp)
      ((agreeOn_cons_none isoOf { } os hi0).2 hi)
      ((agreeOn_cons_none roOf { } os hr0).2 hr),
      firstSetD_cons_none propOf { } os _ hp0,
      firstSetD_cons_none isoOf { } os _ hi0,
      firstSetD_cons_none roOf { } os _ hr0]
    simp
  · intro os hi hr hp
    rw [mergeOptions]
    exact mergeLoop_prop_conflict os { }
      ((agreeOn_cons_none isoOf { } os hi0).2 hi)
      ((agreeOn_cons_none roOf { } os hr0).2 hr)
      (fun hagree => hp ((agreeOn_cons_none propOf { } os hp0).1 hagree))
  · intro os hp hr hi
    rw [mergeOptions]
    exact mergeLoop_iso_conflict os { }
      ((agreeOn_cons_none propOf { } os hp0).2 hp)
      ((agreeOn_cons_none roOf { } os hr0).2 hr)
      (fun hagree => hi ((agreeOn_cons_none isoOf { } os hi0).1 hagree))
  · intro os hp hi hr
    rw [mergeOptions]
    exact mergeLoop_ro_conflict os { }
      ((agreeOn_cons_none propOf { } os hp0).2 hp)
      ((agreeOn_cons_none isoOf { } os hi0).2 hi)
      (fun hagree => hr ((agreeOn_cons_none roOf { } os hr0).1 hagree))
  · intro env ctx fn σ os e he
    rcases h : mergeOptions os with ⟨r, e'⟩
    rw [h] at he
    simp at he
    simp [DoInTransaction, h, he]

theorem mergeOptions_field_contract_w :
    mergeOptions [TxOptionWithPropagation PropagationRequired,
        TxOptionWithPropagation PropagationRequired] =
      ({ Propagation := PropagationRequired }, none) ∧
    (mergeOptions [TxOptionWithPropagation PropagationRequired,
        TxOptionWithPropagation PropagationNever]).2 = some Err.multiplePropagation ∧
    DoInTransaction { } { rootDB := some ⟨1, none⟩ } (fun _ => ([], none))
        [TxOptionWithPropagation PropagationRequired,
          TxOptionWithPropagation PropagationNever] { } =
      (some Err.multiplePropagation, { }) := by
  refine ⟨?_, ?_, ?_⟩
  · have h := mergeOptions_field_contract.1
      [TxOptionWithPropagation PropagationRequired,
        TxOptionWithPropagation PropagationRequired]
      (by unfold AgreeOn; decide) (by unfold AgreeOn; decide)
      (by unfold AgreeOn; decide)
    rw [h]; rfl
  · exact mergeOptions_field_contract.2.1
      [TxOptionWithPropagation PropagationRequired,
        TxOptionWithPropagation PropagationNever]
      (by unfold AgreeOn; decide) (by unfold AgreeOn; decide)
      (by unfold AgreeOn; decide)
  · exact mergeOptions_field_contract.2.2.2.2 { } { rootDB := some ⟨1, none⟩ }
      (fun _ => ([], none)) { }
      [TxOptionWithPropagation PropagationRequired,
        TxOptionWithPropagation PropagationNever]
      Err.multiplePropagation rfl

end GormTxflow
